import Mathlib

/-!
Verification of the gatling path tracer (src/gatling/main.c, src/cgpu/src/cgpu.c).

The development shallowly embeds the scheduler, buffer packer, handle
registry and their helpers as executable Lean functions. Machine integers
(`uint32_t`, `uint64_t`) are modelled as `Nat` with explicit reductions
modulo `2^32` / `2^64` at the points where the C code truncates or can
wrap around.
-/

namespace Gatling

/-- The modulus of `uint32_t` arithmetic. -/
def U32 : Nat := 2 ^ 32

/-- The modulus of `uint64_t` arithmetic. -/
def U64 : Nat := 2 ^ 64

/-! ## SceneBufferPacker: `gatling_align_buffer` (main.c lines 338-350)

```c
uint64_t gatling_align_buffer(uint64_t offset_alignment, uint64_t buffer_size,
                              uint64_t* total_size)
{
  const uint64_t offset =
    ((*total_size) + offset_alignment - 1) / offset_alignment * offset_alignment;
  (*total_size) = offset + buffer_size;
  return offset;
}
```

The by-reference `total_size` becomes explicit state passing: the result is
`(offset, new_total)`. The C expression `t + a - 1` is evaluated in
`uint64_t`; with `t = a = 0` it wraps to `2^64 - 1`, so we write it as
`(t + a + (2^64 - 1)) % 2^64` which agrees with C for every input. The
division's quotient times `a` never exceeds the dividend, so no further
reduction is needed before the multiplication. The C division is
unguarded: with `offset_alignment = 0` it is undefined behavior; `Nat`
division-by-zero yields `0` here. -/
def gatling_align_buffer (offset_alignment buffer_size total_size : Nat) :
    Nat × Nat :=
  let offset :=
    (total_size + offset_alignment + (U64 - 1)) % U64
      / offset_alignment * offset_alignment
  (offset, (offset + buffer_size) % U64)

/-- The packer applied to an ordered list of sizes, threading the running
`total_size` exactly as main.c's consecutive `gatling_align_buffer` calls
do (lines 428-431 and 442-443). Returns the per-entry offsets in order and
the final total size. -/
def pack_buffers (offset_alignment : Nat) :
    List Nat → Nat → List Nat × Nat
  | [], total_size => ([], total_size)
  | buffer_size :: rest, total_size =>
      let r := gatling_align_buffer offset_alignment buffer_size total_size
      let rr := pack_buffers offset_alignment rest r.2
      (r.1 :: rr.1, rr.2)

/-- Modelled from the spec: §7 declares **LayoutErrors** (invalid
alignment, zero-size requests) as programmer errors that fail fast. No
such checked layout routine exists in the source; this definition follows
the spec's words so that it can be compared with `gatling_align_buffer`
(and is the error-reporting behavior the claim attributes to the code). -/
def align_buffer_spec (offset_alignment buffer_size total_size : Nat) :
    Option (Nat × Nat) :=
  if offset_alignment = 0 ∨ buffer_size = 0 then
    none
  else
    let offset := (total_size + offset_alignment - 1)
      / offset_alignment * offset_alignment
    some (offset, offset + buffer_size)

/-! ## WavefrontScheduler (main.c lines 433-437 and 687-798)

The loop in `main` records one command buffer: per batch one ray-generation
dispatch followed by `bounces + 1` extend/shade rounds, each guarded by
pipeline barriers. We embed the command recording as a pure list of
recorded commands and the batch loop as explicit offset iteration. -/

/-- The subset of `program_options` fields (main.c lines 29-40) that drive
the scheduler. All five are `uint32_t` in the source. -/
structure program_options where
  image_width : Nat
  image_height : Nat
  spp : Nat
  bounces : Nat
  pool_ray_count : Nat
deriving DecidableEq, Repr

/-- The subset of `cgpu_physical_device_limits` fields the render loop
reads (cgpu.c lines 201-310 translate them all from Vulkan; main.c uses
these four). `maxComputeWorkGroupCount0` / `maxComputeWorkGroupSize0` are
element 0 of the corresponding 3-element arrays. -/
structure cgpu_physical_device_limits where
  minStorageBufferOffsetAlignment : Nat
  subgroupSize : Nat
  maxComputeWorkGroupCount0 : Nat
  maxComputeWorkGroupSize0 : Nat
deriving DecidableEq, Repr

/-- main.c line 433:
`total_ray_count = (uint64_t)width * (uint64_t)height * (uint64_t)spp`. -/
def total_ray_count (o : program_options) : Nat :=
  o.image_width * o.image_height * o.spp % U64

/-- main.c line 434:
`ray_pool_size = total < pool_ray_count ? total : pool_ray_count`. -/
def ray_pool_size (o : program_options) : Nat :=
  min (total_ray_count o) o.pool_ray_count

/-- The push-constant block of the ray-generation kernel
(main.c lines 23-27). -/
structure raygen_push_consts where
  pixel_index_offset : Nat
  sample_index_offset : Nat
  ray_pool_size : Nat
deriving DecidableEq, Repr

/-- The three compute pipelines built in `main`
(main.c lines 566-568). -/
inductive PipelineId where
  | ray_gen
  | extend
  | shade
deriving DecidableEq, Repr

/-- The five buffers created in `main` (main.c lines 451-455). -/
inductive GpuBuffer where
  | input_buffer
  | staging_buffer
  | intermediate_buffer
  | output_buffer
  | timestamp_buffer
deriving DecidableEq, Repr

/-- The `CGPU_MEMORY_ACCESS_FLAG_*` constants used by main.c, modelled
symbolically; a C flag word `a | b` becomes the list `[a, b]`. -/
inductive AccessFlag where
  | shader_read
  | shader_write
  | transfer_read
  | transfer_write
deriving DecidableEq, Repr

/-- `cgpu_buffer_memory_barrier` as filled in by main.c. -/
structure cgpu_buffer_memory_barrier where
  src_access_flags : List AccessFlag
  dst_access_flags : List AccessFlag
  buffer : GpuBuffer
  offset : Nat
  size : Nat
deriving DecidableEq, Repr

/-- `CGPU_WHOLE_SIZE` (the all-ones `uint64_t` sentinel). -/
def CGPU_WHOLE_SIZE : Nat := U64 - 1

/-- One recorded command: the `cgpu_cmd_*` calls issued by the render loop
that affect dispatch ordering. -/
inductive CgpuCmd where
  | bind_pipeline (p : PipelineId)
  | push_constants (pc : raygen_push_consts)
  | dispatch (dim_x dim_y dim_z : Nat)
  | pipeline_barrier (buffer_barriers : List cgpu_buffer_memory_barrier)
deriving DecidableEq, Repr

/-- main.c lines 403-406. -/
def path_seg_struct_size : Nat := 48

/-- main.c line 404. -/
def hit_info_struct_size : Nat := 48

/-- main.c line 405. -/
def path_seg_header_size : Nat := 16

/-- main.c line 406. -/
def hit_info_header_size : Nat := 16

/-- main.c line 439: `path_segment_buf_offset = 0`. -/
def path_segment_buf_offset : Nat := 0

/-- main.c line 440 (`uint64_t` arithmetic). -/
def path_segment_buf_size (o : program_options) : Nat :=
  (ray_pool_size o * path_seg_struct_size + path_seg_header_size) % U64

/-- main.c line 441 (`uint64_t` arithmetic). -/
def hit_info_buf_size (o : program_options) : Nat :=
  (ray_pool_size o * hit_info_struct_size + hit_info_header_size) % U64

/-- main.c lines 442-443: the hit-info sub-buffer is packed after the
path-segment sub-buffer inside the intermediate buffer. -/
def hit_info_buf_offset (o : program_options)
    (limits : cgpu_physical_device_limits) : Nat :=
  (gatling_align_buffer limits.minStorageBufferOffsetAlignment
    (hit_info_buf_size o)
    (path_segment_buf_offset + path_segment_buf_size o)).1

/-- `buffer_memory_barrier_2` (main.c lines 726-732): write-to-read hazard
on the path-segment region before each Extend dispatch. -/
def path_segment_barrier (o : program_options) : cgpu_buffer_memory_barrier :=
  { src_access_flags := [.shader_write]
    dst_access_flags := [.shader_read]
    buffer := .intermediate_buffer
    offset := path_segment_buf_offset
    size := path_segment_buf_size o }

/-- First element of `buffer_memory_barrier_3` (main.c lines 757-764):
write-to-read hazard on the hit-info region before each Shade dispatch. -/
def hit_info_barrier (o : program_options)
    (limits : cgpu_physical_device_limits) : cgpu_buffer_memory_barrier :=
  { src_access_flags := [.shader_write]
    dst_access_flags := [.shader_read]
    buffer := .intermediate_buffer
    offset := hit_info_buf_offset o limits
    size := hit_info_buf_size o }

/-- Second element of `buffer_memory_barrier_3` (main.c lines 765-771):
write to read-or-write hazard on the whole output buffer. -/
def output_barrier : cgpu_buffer_memory_barrier :=
  { src_access_flags := [.shader_write]
    dst_access_flags := [.shader_read, .shader_write]
    buffer := .output_buffer
    offset := 0
    size := CGPU_WHOLE_SIZE }

/-- The body of one bounce iteration (main.c lines 723-795): path-segment
barrier, bind extend, dispatch, hit-info and output barriers, bind shade,
dispatch. The loop counter `bounce` is unused in the body. -/
def gatling_bounce_cmds (o : program_options)
    (limits : cgpu_physical_device_limits) : List CgpuCmd :=
  [ .pipeline_barrier [path_segment_barrier o],
    .bind_pipeline .extend,
    .dispatch limits.maxComputeWorkGroupSize0 1 1,
    .pipeline_barrier [hit_info_barrier o limits, output_barrier],
    .bind_pipeline .shade,
    .dispatch limits.maxComputeWorkGroupSize0 1 1 ]

/-- The counted bounce loop
(`for (bounce = 0; bounce < bounces + 1; ++bounce)`, main.c line 723),
embedded by its iteration count. -/
def gatling_bounce_loop (o : program_options)
    (limits : cgpu_physical_device_limits) : Nat → List CgpuCmd
  | 0 => []
  | n + 1 => gatling_bounce_cmds o limits ++ gatling_bounce_loop o limits n

/-- The commands recorded for one batch at ray offset `ray_offset`
(main.c lines 691-795): bind ray-gen, push constants (with the `uint32_t`
casts of lines 699-704), one generation dispatch, then `bounces + 1`
bounce bodies. -/
def gatling_batch_cmds (o : program_options)
    (limits : cgpu_physical_device_limits) (ray_offset : Nat) : List CgpuCmd :=
  let rays_left := total_ray_count o - ray_offset
  let pool_size := min rays_left (ray_pool_size o) % U32
  [ .bind_pipeline .ray_gen,
    .push_constants
      { pixel_index_offset := ray_offset / o.spp % U32
        sample_index_offset := ray_offset % o.spp % U32
        ray_pool_size := pool_size },
    .dispatch (pool_size / limits.subgroupSize + 1) 1 1 ]
  ++ gatling_bounce_loop o limits (o.bounces + 1)

/-- The observable parameters of one batch: the loop's `ray_offset` at
which it was generated, the three push constants of its Generate dispatch
(main.c lines 698-705). `live_count` is the `ray_pool_size` push
constant, i.e. the number of in-flight rays of this batch. -/
structure RayBatch where
  ray_offset : Nat
  pixel_index_offset : Nat
  sample_index_offset : Nat
  live_count : Nat
deriving DecidableEq, Repr

/-- The batch generated at `ray_offset` (main.c lines 698-705). -/
def gatling_batch (o : program_options) (ray_offset : Nat) : RayBatch :=
  { ray_offset := ray_offset
    pixel_index_offset := ray_offset / o.spp % U32
    sample_index_offset := ray_offset % o.spp % U32
    live_count := min (total_ray_count o - ray_offset) (ray_pool_size o) % U32 }

/-- The batch loop (`while (ray_offset < total_ray_count)`, main.c lines
687-798) as a fuelled recursion on the `uint64_t` loop variable:
`ray_offset += ray_pool_size` wraps modulo `2^64`. -/
def gatling_batches (o : program_options) : Nat → Nat → List RayBatch
  | 0, _ => []
  | fuel + 1, ray_offset =>
      if ray_offset < total_ray_count o then
        gatling_batch o ray_offset ::
          gatling_batches o fuel ((ray_offset + ray_pool_size o) % U64)
      else []

/-- All batches of a render, starting at offset 0. `total_ray_count` fuel
suffices for every terminating configuration since each executed batch
advances the offset by at least one. -/
def batchList (o : program_options) : List RayBatch :=
  gatling_batches o (total_ray_count o) 0

/-- The value of `ray_offset` after `n` iterations of the batch loop. -/
def sched_offset (o : program_options) : Nat → Nat
  | 0 => 0
  | n + 1 =>
      let off := sched_offset o n
      if off < total_ray_count o then (off + ray_pool_size o) % U64 else off

/-- The batch loop terminates: some finite number of iterations reaches
`ray_offset ≥ total_ray_count`. -/
def sched_terminates (o : program_options) : Prop :=
  ∃ n, total_ray_count o ≤ sched_offset o n

/-- One dispatch as observed in a recorded command stream: the pipeline
bound at that point, the barriers recorded since the previous dispatch,
and the dispatch dimensions. -/
structure DispatchRecord where
  pipeline : Option PipelineId
  barriers_before : List cgpu_buffer_memory_barrier
  dim_x : Nat
  dim_y : Nat
  dim_z : Nat
deriving DecidableEq, Repr

/-- Scan a command stream and extract, for each dispatch, the currently
bound pipeline and the barriers recorded between the previous dispatch
and this one. -/
def dispatch_log (cur : Option PipelineId)
    (pending : List cgpu_buffer_memory_barrier) :
    List CgpuCmd → List DispatchRecord
  | [] => []
  | .bind_pipeline p :: rest => dispatch_log (some p) pending rest
  | .push_constants _ :: rest => dispatch_log cur pending rest
  | .pipeline_barrier bs :: rest => dispatch_log cur (pending ++ bs) rest
  | .dispatch x y z :: rest =>
      ⟨cur, pending, x, y, z⟩ :: dispatch_log cur [] rest

/-! ## HandleRegistry (`resource_store`)

cgpu.c stores every GPU object in a `resource_store` and resolves opaque
handles through `resource_store_get` (the `CGPU_RESOLVE_HANDLE` macro,
cgpu.c lines 69-90); the stores are created in `cgpu_initialize`
(cgpu.c lines 950-957). The `resource_store` implementation itself
(resource_store.h/.c) is not part of the provided sources, so its
operations are modelled from the spec below. -/

/-- Modelled from the spec: spec §3 "Slot: fixed-size storage cell ...
attributes: generation counter (monotonic on reuse), occupied flag".
The element payload is irrelevant to handle semantics and is omitted. -/
structure resource_slot where
  generation : Nat
  occupied : Bool
deriving DecidableEq, Repr

/-- Modelled from the spec: spec §3 "Handle: opaque value =
(slot index, generation) pair; equality requires exact match on both
fields". -/
structure Handle where
  index : Nat
  generation : Nat
deriving DecidableEq, Repr

/-- Modelled from the spec: spec §3 "Store: array of Slots for one
resource kind plus a free-list of unoccupied indices; capacity grows on
demand". -/
structure resource_store where
  slots : List resource_slot
  free_list : List Nat
deriving DecidableEq, Repr

/-- The slot at index `i` (fresh unoccupied slot when out of range). -/
def resource_store.slotAt (s : resource_store) (i : Nat) : resource_slot :=
  s.slots.getD i ⟨0, false⟩

/-- Modelled from the spec: spec §4.1 `create(store, elementSize,
capacityHint)` "allocates a store of elementSize-byte slots"; all slots
start unoccupied at generation 0 and populate the free-list
(cgpu_initialize calls it with capacity hints 1-64, cgpu.c 950-957). -/
def resource_store_create (capacity : Nat) : resource_store :=
  { slots := List.replicate capacity ⟨0, false⟩
    free_list := List.range capacity }

/-- Modelled from the spec: spec §4.1 `allocateHandle(store)` "returns a
handle to a newly zeroed slot; if the free-list is empty, grows the
backing array (e.g., doubling)". Growth appends `max n 1` fresh slots;
the handle carries the slot's current generation. -/
def resource_store_create_handle (s : resource_store) :
    resource_store × Handle :=
  match s.free_list with
  | i :: rest =>
      let slot := s.slotAt i
      ({ slots := s.slots.set i ⟨slot.generation, true⟩, free_list := rest },
       ⟨i, slot.generation⟩)
  | [] =>
      let n := s.slots.length
      let grown := s.slots ++ List.replicate (max n 1) ⟨0, false⟩
      ({ slots := grown.set n ⟨0, true⟩
         free_list := (List.range (max n 1 - 1)).map (fun k => n + 1 + k) },
       ⟨n, 0⟩)

/-- Modelled from the spec: spec §4.1 `resolve(store, handle)` "succeeds
iff the index is in-bounds, the slot is occupied, and the handle's
generation equals the slot's current generation". On success it yields
the resolved slot index (the stand-in for the returned pointer);
`none` is the `NotFound` outcome surfaced by `resource_store_get` /
`CGPU_RESOLVE_HANDLE` (cgpu.c lines 69-90). -/
def resource_store_get (s : resource_store) (h : Handle) : Option Nat :=
  if h.index < s.slots.length then
    let slot := s.slotAt h.index
    if slot.occupied && slot.generation == h.generation then
      some h.index
    else none
  else none

/-- Modelled from the spec: spec §4.1 `free(store, handle)` "requires
successful resolution; marks the slot unoccupied, increments its
generation, returns the index to the free-list. Freeing an
already-invalid handle is a reported error": the Boolean reports whether
the free succeeded. -/
def resource_store_free_handle (s : resource_store) (h : Handle) :
    resource_store × Bool :=
  match resource_store_get s h with
  | some _ =>
      let slot := s.slotAt h.index
      ({ slots := s.slots.set h.index ⟨slot.generation + 1, false⟩
         free_list := h.index :: s.free_list },
       true)
  | none => (s, false)

/-- One registry operation of a client trace: allocate a handle, or free
a given handle. -/
inductive StoreOp where
  | alloc
  | free (h : Handle)
deriving DecidableEq, Repr

/-- State transition of one operation. -/
def store_step (s : resource_store) : StoreOp → resource_store
  | .alloc => (resource_store_create_handle s).1
  | .free h => (resource_store_free_handle s h).1

/-- State after running a whole operation sequence. -/
def store_run (s : resource_store) (ops : List StoreOp) : resource_store :=
  ops.foldl store_step s

/-! ## `cgpu_destroy_buffer` (cgpu.c lines 1384-1411)

```c
CgpuResult cgpu_destroy_buffer(cgpu_device device, cgpu_buffer buffer)
{
  cgpu_idevice* idevice;
  if (!cgpu_resolve_device(device.handle, &idevice)) return CGPU_FAIL_INVALID_HANDLE;
  cgpu_ibuffer* ibuffer;
  if (!cgpu_resolve_buffer(buffer.handle, &ibuffer)) return CGPU_FAIL_INVALID_HANDLE;
  vkDestroyBuffer(...); vkFreeMemory(...);
  resource_store_free_handle(&ibuffer_store, buffer.handle);
  return CGPU_OK;
}
```
-/

/-- The `CgpuResult` values this development needs. -/
inductive CgpuResult where
  | ok
  | fail_invalid_handle
deriving DecidableEq, Repr

/-- `cgpu_destroy_buffer`. The Vulkan side effects (`vkDestroyBuffer`,
`vkFreeMemory`) are abstracted into the returned Boolean: `true` iff the
backend destruction was performed. The result carries the mutated buffer
store. -/
def cgpu_destroy_buffer (idevice_store ibuffer_store : resource_store)
    (device buffer : Handle) : CgpuResult × resource_store × Bool :=
  match resource_store_get idevice_store device with
  | none => (.fail_invalid_handle, ibuffer_store, false)
  | some _ =>
      match resource_store_get ibuffer_store buffer with
      | none => (.fail_invalid_handle, ibuffer_store, false)
      | some _ =>
          (.ok, (resource_store_free_handle ibuffer_store buffer).1, true)

/-! ## `gatling_get_parent_directory` (main.c lines 195-216)

```c
static void gatling_get_parent_directory(const char* file_path, char* dir_path)
{
  char* last_path_sep = strrchr(file_path, '/');
  if (last_path_sep == NULL) last_path_sep = strrchr(file_path, '\x5c');
  if (last_path_sep != NULL) {
    const uint32_t char_index = (uint32_t)(last_path_sep - file_path);
    memcpy(dir_path, file_path, char_index);
    dir_path[char_index] = 0;
  } else {
    dir_path = ".";      /* rebinds the local parameter only */
  }
}
```
-/

/-- The index of the last occurrence of `c` in `s`, as computed by
`strrchr` over the string contents (the terminating NUL is not part of
the list). -/
def strrchr_index : List Char → Char → Option Nat
  | [], _ => none
  | a :: rest, c =>
      match strrchr_index rest c with
      | some i => some (i + 1)
      | none => if a = c then some 0 else none

/-- The backslash character (C escape in a comment above; kept as a
code point here). -/
def backslashChar : Char := Char.ofNat 92

/-- The NUL character written as the terminator. -/
def nulChar : Char := Char.ofNat 0

/-- `gatling_get_parent_directory`: takes the input path and the
caller-supplied output buffer contents, returns the output buffer
contents after the call. When a separator is found at `char_index`, the
first `char_index` bytes are overwritten by the path prefix and byte
`char_index` by NUL; later bytes keep their previous contents. When no
separator exists, the C code only rebinds its local `dir_path` parameter
to the literal "." — the caller's buffer is untouched. -/
def gatling_get_parent_directory (file_path dir_path : List Char) :
    List Char :=
  let last_path_sep :=
    match strrchr_index file_path '/' with
    | some i => some i
    | none => strrchr_index file_path backslashChar
  match last_path_sep with
  | some char_index =>
      file_path.take char_index ++ nulChar :: dir_path.drop (char_index + 1)
  | none => dir_path

/-! ## Packer lemmas -/

/-- The aligned offset is at least the running total. -/
lemma le_align_off (A t : Nat) (hA : 0 < A) : t ≤ (t + A - 1) / A * A := by
  have h1 := Nat.div_add_mod (t + A - 1) A
  have h2 : (t + A - 1) % A < A := Nat.mod_lt _ hA
  rw [Nat.mul_comm]
  omega

/-- The aligned offset overshoots the running total by less than one
alignment unit. -/
lemma align_off_le (A t : Nat) : (t + A - 1) / A * A ≤ t + A - 1 :=
  Nat.div_mul_le_self _ _

/-- The aligned offset is a multiple of the alignment. -/
lemma align_off_mod (A t : Nat) : (t + A - 1) / A * A % A = 0 :=
  Nat.mul_mod_left _ _

/-- `U64` is positive. -/
lemma U64_pos : 0 < U64 := by norm_num [U64]

/-- The wrap-safe rewriting of the C expression `t + a - 1` agrees with
the mathematical `t + a - 1` when no `uint64_t` wraparound occurs. -/
lemma align_expr_eq (A t : Nat) (h : 0 < t + A) (h2 : t + A - 1 < U64) :
    (t + A + (U64 - 1)) % U64 = t + A - 1 := by
  have hU := U64_pos
  have h3 : t + A + (U64 - 1) = (t + A - 1) + U64 := by omega
  rw [h3, Nat.add_mod_right, Nat.mod_eq_of_lt h2]

/-- On inputs without `uint64_t` overflow, `gatling_align_buffer` computes
the ideal aligned offset and total. -/
lemma gatling_align_buffer_eq (A s t : Nat) (hA : 0 < A)
    (ht : t + A - 1 < U64) (hts : (t + A - 1) / A * A + s < U64) :
    gatling_align_buffer A s t = ((t + A - 1) / A * A, (t + A - 1) / A * A + s) := by
  unfold gatling_align_buffer
  rw [align_expr_eq A t (by omega) ht]
  simp only []
  rw [Nat.mod_eq_of_lt hts]

/-- The invariant carried through the packer fold: offsets are aligned, at
least the running total plus all previously packed bytes, laid out in
order, and the final total is the last offset plus the last size. The
budget hypothesis rules out `uint64_t` wraparound. -/
lemma pack_buffers_props (A : Nat) (hA : 0 < A) :
    ∀ (sizes : List Nat) (total : Nat),
      total + sizes.sum + sizes.length * A < U64 →
      (pack_buffers A sizes total).1.length = sizes.length
      ∧ (∀ i, i < sizes.length →
          (pack_buffers A sizes total).1.getD i 0 % A = 0)
      ∧ (∀ i, i < sizes.length →
          total + (sizes.take i).sum ≤ (pack_buffers A sizes total).1.getD i 0)
      ∧ (∀ i, i + 1 < sizes.length →
          (pack_buffers A sizes total).1.getD i 0 + sizes.getD i 0
            ≤ (pack_buffers A sizes total).1.getD (i + 1) 0)
      ∧ (sizes ≠ [] →
          (pack_buffers A sizes total).2
            = (pack_buffers A sizes total).1.getLastD 0 + sizes.getLastD 0)
      ∧ (sizes = [] → (pack_buffers A sizes total).2 = total) := by
  intro sizes
  induction sizes with
  | nil => intro total _; simp [pack_buffers]
  | cons s rest ih =>
      intro total hbud
      have hlen : (s :: rest).length = rest.length + 1 := rfl
      have hsum : (s :: rest).sum = s + rest.sum := rfl
      rw [hlen, hsum, Nat.succ_mul] at hbud
      have hoff_ub := align_off_le A total
      have hoff_lb := le_align_off A total hA
      have ht : total + A - 1 < U64 := by omega
      have hts : (total + A - 1) / A * A + s < U64 := by omega
      have heq := gatling_align_buffer_eq A s total hA ht hts
      have hbud' : ((total + A - 1) / A * A + s) + rest.sum
          + rest.length * A < U64 := by omega
      have IH := ih ((total + A - 1) / A * A + s) hbud'
      have hunfold : pack_buffers A (s :: rest) total
          = ((total + A - 1) / A * A
              :: (pack_buffers A rest ((total + A - 1) / A * A + s)).1,
             (pack_buffers A rest ((total + A - 1) / A * A + s)).2) := by
        simp [pack_buffers, heq]
      rw [hunfold]
      refine ⟨by simpa using IH.1, ?_, ?_, ?_, ?_, by simp⟩
      · intro i hi
        match i with
        | 0 =>
            simp only [List.getD_cons_zero]
            exact align_off_mod A total
        | j + 1 =>
            simpa using IH.2.1 j (by simp at hi; omega)
      · intro i hi
        match i with
        | 0 => simpa using hoff_lb
        | j + 1 =>
            have h1 := IH.2.2.1 j (by simpa using hi)
            have h2 : total + (s + (rest.take j).sum)
                ≤ ((total + A - 1) / A * A + s) + (rest.take j).sum := by omega
            simpa using le_trans h2 h1
      · intro i hi
        match i with
        | 0 =>
            have h0 := IH.2.2.1 0 (by simpa using hi)
            simp only [List.take_zero, List.sum_nil, Nat.add_zero] at h0
            simpa using h0
        | j + 1 =>
            simpa using IH.2.2.2.1 j (by simpa using hi)
      · intro _
        match rest with
        | [] =>
            simp [pack_buffers]
        | r :: rs =>
            have hne : (r :: rs) ≠ [] := by simp
            have h5 := IH.2.2.2.2.1 hne
            have hoffs_ne :
                (pack_buffers A (r :: rs) ((total + A - 1) / A * A + s)).1 ≠ [] := by
              intro hcon
              have := IH.1
              rw [hcon] at this
              simp at this
            rcases List.exists_cons_of_ne_nil hoffs_ne with ⟨o1, os, hos⟩
            rw [hos] at h5 ⊢
            have e1 : ((total + A - 1) / A * A :: o1 :: os).getLastD 0
                = (o1 :: os).getLastD 0 := by
              simp [List.getLastD_eq_getLast?, List.getLast?_cons_cons]
            have e2 : (s :: r :: rs).getLastD 0 = (r :: rs).getLastD 0 := by
              simp [List.getLastD_eq_getLast?, List.getLast?_cons_cons]
            rw [e1, e2]
            exact h5

/-- C4: for every alignment A > 0 and every ordered list of buffer sizes
(without `uint64_t` overflow), the packer assigns each request an offset
that is a multiple of A and at least the running total of all previously
packed bytes; the total size equals the last offset plus the last size;
entries are laid out in declaration order (each offset is past the end of
the previous entry). -/
theorem packer_aligned_offsets (A : Nat) (sizes : List Nat) (hA : 0 < A)
    (hov : sizes.sum + sizes.length * A < U64) :
    (pack_buffers A sizes 0).1.length = sizes.length
    ∧ (∀ i, i < sizes.length → (pack_buffers A sizes 0).1.getD i 0 % A = 0)
    ∧ (∀ i, i < sizes.length →
        (sizes.take i).sum ≤ (pack_buffers A sizes 0).1.getD i 0)
    ∧ (∀ i, i + 1 < sizes.length →
        (pack_buffers A sizes 0).1.getD i 0 + sizes.getD i 0
          ≤ (pack_buffers A sizes 0).1.getD (i + 1) 0)
    ∧ (sizes ≠ [] →
        (pack_buffers A sizes 0).2
          = (pack_buffers A sizes 0).1.getLastD 0 + sizes.getLastD 0) := by
  have h := pack_buffers_props A hA sizes 0 (by simpa using hov)
  refine ⟨h.1, h.2.1, ?_, h.2.2.2.1, h.2.2.2.2.1⟩
  intro i hi
  simpa using h.2.2.1 i hi

/-- C4 witness: the aligned layout of `[100, 300, 50]` at alignment 256
satisfies the proved properties at concrete indices. -/
theorem packer_aligned_offsets_witness :
    (pack_buffers 256 [100, 300, 50] 0).1.getD 1 0 % 256 = 0
    ∧ (([100, 300, 50] : List Nat).take 2).sum
        ≤ (pack_buffers 256 [100, 300, 50] 0).1.getD 2 0
    ∧ (pack_buffers 256 [100, 300, 50] 0).2
        = (pack_buffers 256 [100, 300, 50] 0).1.getLastD 0
          + ([100, 300, 50] : List Nat).getLastD 0 := by
  have h := packer_aligned_offsets 256 [100, 300, 50] (by norm_num)
    (by norm_num [U64])
  exact ⟨h.2.1 1 (by norm_num), h.2.2.1 2 (by norm_num),
    h.2.2.2.2 (by simp)⟩

/-- C5 counterexample: packing `[(x,100), (y,300), (z,50)]` at alignment
256 gives z the offset 768 (the running total 556 after y rounds up to
768), not 512, and the total packed size is 818, not 578. The claimed
layout would even overlap: y occupies bytes [256, 556). -/
theorem packer_example_counterexample :
    pack_buffers 256 [100, 300, 50] 0 = ([0, 256, 768], 818)
    ∧ ¬ ((pack_buffers 256 [100, 300, 50] 0).1 = [0, 256, 512]
         ∧ (pack_buffers 256 [100, 300, 50] 0).2 = 578) := by
  constructor
  · decide
  · decide

/-- C5 (amended): packing the requests `[(x,100), (y,300), (z,50)]` with
alignment A = 256 yields offsets x:0, y:256, z:768 and a total packed
size of 818. -/
theorem packer_example :
    pack_buffers 256 [100, 300, 50] 0 = ([0, 256, 768], 818) := by
  decide

/-- C9 counterexample: a zero-size layout request is not rejected —
`gatling_align_buffer` lays it out normally and reports nothing, while
the spec's fail-fast layout (modelled by `align_buffer_spec`) rejects
it. There is likewise no guard before the division: the function body is
a single unconditional expression, so with alignment 0 the division by
zero is reached (undefined behavior in C). -/
theorem align_buffer_validation_counterexample :
    gatling_align_buffer 256 0 0 = (0, 0)
    ∧ align_buffer_spec 256 0 0 = none := by
  constructor
  · decide
  · decide

/-- C9 (amended): `gatling_align_buffer` performs no input validation and
reports no error. On the valid domain (positive alignment, positive
size, no `uint64_t` overflow) it agrees with the spec's checked layout
computation, but a zero-size request is laid out normally instead of
failing fast, and the division by the alignment is unguarded (calling it
with alignment 0 is undefined behavior in C). -/
theorem align_buffer_unvalidated (A s t : Nat) (hA : 0 < A) (hs : 0 < s)
    (hov : t + A - 1 + s < U64) :
    align_buffer_spec A s t = some (gatling_align_buffer A s t)
    ∧ gatling_align_buffer 256 0 0 = (0, 0) := by
  constructor
  · have ht : t + A - 1 < U64 := by omega
    have hts : (t + A - 1) / A * A + s < U64 := by
      have := align_off_le A t
      omega
    rw [gatling_align_buffer_eq A s t hA ht hts]
    simp [align_buffer_spec, Nat.pos_iff_ne_zero.mp hA, Nat.pos_iff_ne_zero.mp hs]
  · decide

/-- C9 witness: the valid-domain agreement at alignment 256, size 100,
running total 0. -/
theorem align_buffer_unvalidated_witness :
    align_buffer_spec 256 100 0 = some (gatling_align_buffer 256 100 0) :=
  (align_buffer_unvalidated 256 100 0 (by norm_num) (by norm_num)
    (by norm_num [U64])).1

/-! ## Parent-directory lemmas -/

/-- `strrchr` finds nothing when the character does not occur. -/
lemma strrchr_index_eq_none {s : List Char} {c : Char} (h : c ∉ s) :
    strrchr_index s c = none := by
  induction s with
  | nil => rfl
  | cons a rest ih =>
      simp only [List.mem_cons, not_or] at h
      have hne : ¬ a = c := fun hc => h.1 hc.symm
      simp [strrchr_index, ih h.2, hne]

/-- C10: for every input path containing neither '/' nor a backslash,
`gatling_get_parent_directory` leaves the caller-supplied output buffer
completely unmodified — the fallback assignment rebinds only the local
parameter and writes nothing into the caller's buffer. -/
theorem parent_directory_no_separator_frame (file_path dir_path : List Char)
    (h1 : '/' ∉ file_path) (h2 : backslashChar ∉ file_path) :
    gatling_get_parent_directory file_path dir_path = dir_path := by
  unfold gatling_get_parent_directory
  rw [strrchr_index_eq_none h1, strrchr_index_eq_none h2]

/-- C10 witness: the buffer is untouched for the separator-free path
"scene.gsd". -/
theorem parent_directory_no_separator_frame_witness :
    gatling_get_parent_directory "scene.gsd".toList "OLDBUFFER".toList
      = "OLDBUFFER".toList :=
  parent_directory_no_separator_frame _ _ (by decide) (by decide)

/-! ## Scheduler lemmas -/

/-- Every batch the loop emits was generated at some offset strictly below
the total ray count. -/
lemma gatling_batches_mem (o : program_options) :
    ∀ (fuel ray_offset : Nat), ∀ b ∈ gatling_batches o fuel ray_offset,
      ∃ r, r < total_ray_count o ∧ b = gatling_batch o r := by
  intro fuel
  induction fuel with
  | zero => intro off b hb; simp [gatling_batches] at hb
  | succ n ih =>
      intro off b hb
      by_cases hlt : off < total_ray_count o
      · rw [gatling_batches, if_pos hlt] at hb
        rcases List.mem_cons.mp hb with hb | hb
        · exact ⟨off, hlt, hb⟩
        · exact ih _ b hb
      · rw [gatling_batches, if_neg hlt] at hb
        simp at hb

/-- C1: the scheduler derives totalRays = width·height·spp, and every
batch it dispatches carries pixel_index_offset = offset div spp,
sample_index_offset = offset mod spp and live count =
min(totalRays − offset, poolCapacity); in particular totalRays = 1000
with poolCapacity = 300 performs exactly 4 batches with live-count
sequence [300, 300, 300, 100], and totalRays = 300 with
poolCapacity = 300 performs exactly 1 batch. (The hypotheses express
that the `uint32_t` inputs and the `uint64_t` ray total do not
overflow their machine widths.) -/
theorem scheduler_batches (o : program_options)
    (hspp : o.spp < U32) (hprc : o.pool_ray_count < U32)
    (hwh : o.image_width * o.image_height ≤ U32)
    (hov : o.image_width * o.image_height * o.spp < U64) :
    total_ray_count o = o.image_width * o.image_height * o.spp
    ∧ (∀ b ∈ batchList o,
        b.ray_offset < total_ray_count o
        ∧ b.pixel_index_offset = b.ray_offset / o.spp
        ∧ b.sample_index_offset = b.ray_offset % o.spp
        ∧ b.live_count = min (total_ray_count o - b.ray_offset) o.pool_ray_count)
    ∧ (batchList ⟨10, 10, 10, 4, 300⟩).map RayBatch.live_count
        = [300, 300, 300, 100]
    ∧ (batchList ⟨10, 10, 10, 4, 300⟩).length = 4
    ∧ (batchList ⟨10, 10, 3, 4, 300⟩).length = 1 := by
  have hT : total_ray_count o = o.image_width * o.image_height * o.spp := by
    unfold total_ray_count
    exact Nat.mod_eq_of_lt hov
  refine ⟨hT, ?_, by decide, by decide, by decide⟩
  intro b hb
  rcases gatling_batches_mem o _ 0 b hb with ⟨r, hr, rfl⟩
  have hsp : 0 < o.spp := by
    rcases Nat.eq_zero_or_pos o.spp with h0 | h0
    · rw [hT, h0, Nat.mul_zero] at hr; omega
    · exact h0
  have hdiv : r / o.spp < o.image_width * o.image_height := by
    rw [Nat.div_lt_iff_lt_mul hsp]
    calc r < total_ray_count o := hr
    _ = o.image_width * o.image_height * o.spp := hT
  have hpix : r / o.spp % U32 = r / o.spp :=
    Nat.mod_eq_of_lt (lt_of_lt_of_le hdiv hwh)
  have hsam : r % o.spp % U32 = r % o.spp :=
    Nat.mod_eq_of_lt (lt_trans (Nat.mod_lt _ hsp) hspp)
  have hlive_le : min (total_ray_count o - r) (ray_pool_size o)
      ≤ o.pool_ray_count :=
    le_trans (min_le_right _ _) (min_le_right _ _)
  have hlive : min (total_ray_count o - r) (ray_pool_size o) % U32
      = min (total_ray_count o - r) o.pool_ray_count := by
    rw [Nat.mod_eq_of_lt (lt_of_le_of_lt hlive_le hprc)]
    unfold ray_pool_size
    rw [← min_assoc, min_eq_left (Nat.sub_le _ _)]
  exact ⟨hr, hpix, hsam, hlive⟩

/-- C1 witness: the concrete 1000-ray, 300-pool configuration satisfies
the hypotheses and shows the claimed live-count sequence. -/
theorem scheduler_batches_witness :
    (batchList ⟨10, 10, 10, 4, 300⟩).map RayBatch.live_count
        = [300, 300, 300, 100]
    ∧ (batchList ⟨10, 10, 3, 4, 300⟩).length = 1 := by
  have h := scheduler_batches ⟨10, 10, 10, 4, 300⟩ (by decide) (by decide)
    (by decide) (by decide)
  exact ⟨h.2.2.1, h.2.2.2.2⟩

/-- C7 counterexample: the configuration width = height = spp = 1 with
pool_ray_count = 0 has totalRays = 1 but a zero pool, so
`ray_offset += ray_pool_size` never advances the offset and the batch
loop never reaches `offset ≥ totalRays`. -/
theorem scheduler_termination_counterexample :
    ¬ sched_terminates ⟨1, 1, 1, 0, 0⟩ := by
  have hstuck : ∀ n, sched_offset ⟨1, 1, 1, 0, 0⟩ n = 0 := by
    intro n
    induction n with
    | zero => rfl
    | succ m ih =>
        rw [sched_offset]
        simp only [ih]
        decide
  rintro ⟨n, hn⟩
  rw [hstuck n] at hn
  revert hn
  decide

/-- C7 (amended): for every configuration with a nonzero ray pool and no
`uint64_t` wraparound of the offset (totalRays + poolSize ≤ 2^64), the
batch loop terminates: after finitely many iterations
`ray_offset ≥ totalRays` holds. With pool_ray_count = 0 and
totalRays > 0 the loop never terminates. -/
theorem scheduler_termination (o : program_options)
    (hp : 0 < o.pool_ray_count)
    (hov : total_ray_count o + ray_pool_size o ≤ U64) :
    sched_terminates o := by
  rcases Nat.eq_zero_or_pos (total_ray_count o) with hT | hT
  · exact ⟨0, by simp [sched_offset, hT]⟩
  have hpool : 0 < ray_pool_size o := lt_min hT hp
  have key : ∀ n, total_ray_count o ≤ sched_offset o n
      ∨ sched_offset o n = n * ray_pool_size o := by
    intro n
    induction n with
    | zero => exact Or.inr (by simp [sched_offset])
    | succ m ih =>
        rcases ih with hle | heq
        · left
          rw [sched_offset]
          simp only [if_neg (Nat.not_lt.mpr hle)]
          exact hle
        · by_cases hlt : sched_offset o m < total_ray_count o
          · right
            rw [sched_offset]
            simp only [if_pos hlt]
            have hb : sched_offset o m + ray_pool_size o < U64 := by omega
            rw [Nat.mod_eq_of_lt hb, heq, Nat.succ_mul]
          · left
            rw [sched_offset]
            simp only [if_neg hlt]
            omega
  refine ⟨total_ray_count o, ?_⟩
  rcases key (total_ray_count o) with h | h
  · exact h
  · rw [h]
    calc total_ray_count o = total_ray_count o * 1 := by omega
    _ ≤ total_ray_count o * ray_pool_size o :=
        Nat.mul_le_mul_left _ hpool

/-- C7 witness: the 1000-ray, 300-pool configuration terminates. -/
theorem scheduler_termination_witness :
    sched_terminates ⟨10, 10, 10, 4, 300⟩ :=
  scheduler_termination ⟨10, 10, 10, 4, 300⟩ (by decide) (by decide)

/-! ## Command-stream structure (C3, C6) -/

/-- The expected dispatch pattern of `n` bounce rounds: an Extend
dispatch guarded by the path-segment barrier, then a Shade dispatch
guarded by the hit-info and output barriers, both at the fixed device
width. -/
def extend_shade_records (o : program_options)
    (limits : cgpu_physical_device_limits) : Nat → List DispatchRecord
  | 0 => []
  | n + 1 =>
      ⟨some .extend, [path_segment_barrier o],
        limits.maxComputeWorkGroupSize0, 1, 1⟩ ::
      ⟨some .shade, [hit_info_barrier o limits, output_barrier],
        limits.maxComputeWorkGroupSize0, 1, 1⟩ ::
      extend_shade_records o limits n

/-- The pipelines of `n` Extend+Shade pairs, in order. -/
def extend_shade_pipelines : Nat → List (Option PipelineId)
  | 0 => []
  | n + 1 => some .extend :: some .shade :: extend_shade_pipelines n

/-- Scanning the bounce loop yields exactly the Extend+Shade dispatch
pattern, whatever pipeline was bound before it. -/
lemma dispatch_log_bounce_loop (o : program_options)
    (limits : cgpu_physical_device_limits) :
    ∀ (n : Nat) (cur : Option PipelineId),
      dispatch_log cur [] (gatling_bounce_loop o limits n)
        = extend_shade_records o limits n := by
  intro n
  induction n with
  | zero => intro cur; rfl
  | succ m ih =>
      intro cur
      simp only [gatling_bounce_loop, gatling_bounce_cmds, List.append_eq,
        List.cons_append, List.nil_append, dispatch_log, extend_shade_records]
      rw [ih (some .shade)]

/-- Scanning one whole batch: one ray-generation dispatch with no
pending barrier, then the bounce pattern `bounces + 1` times. -/
lemma dispatch_log_batch (o : program_options)
    (limits : cgpu_physical_device_limits) (ray_offset : Nat) :
    dispatch_log none [] (gatling_batch_cmds o limits ray_offset)
      = ⟨some .ray_gen, [],
          min (total_ray_count o - ray_offset) (ray_pool_size o) % U32
            / limits.subgroupSize + 1, 1, 1⟩ ::
        extend_shade_records o limits (o.bounces + 1) := by
  simp only [gatling_batch_cmds, List.append_eq, List.cons_append,
    List.nil_append, dispatch_log, gatling_bounce_loop, gatling_bounce_cmds]
  rw [dispatch_log_bounce_loop o limits o.bounces (some .shade)]
  rfl

/-- Every record of the bounce pattern is the Extend record or the Shade
record. -/
lemma extend_shade_records_mem (o : program_options)
    (limits : cgpu_physical_device_limits) :
    ∀ (n : Nat), ∀ r ∈ extend_shade_records o limits n,
      r = ⟨some .extend, [path_segment_barrier o],
            limits.maxComputeWorkGroupSize0, 1, 1⟩
      ∨ r = ⟨some .shade, [hit_info_barrier o limits, output_barrier],
            limits.maxComputeWorkGroupSize0, 1, 1⟩ := by
  intro n
  induction n with
  | zero => intro r hr; simp [extend_shade_records] at hr
  | succ m ih =>
      intro r hr
      rcases List.mem_cons.mp hr with h | hr
      · exact Or.inl h
      rcases List.mem_cons.mp hr with h | hr
      · exact Or.inr h
      · exact ih r hr

/-- The pipeline trace of the bounce pattern. -/
lemma extend_shade_records_map (o : program_options)
    (limits : cgpu_physical_device_limits) :
    ∀ (n : Nat), (extend_shade_records o limits n).map DispatchRecord.pipeline
      = extend_shade_pipelines n := by
  intro n
  induction n with
  | zero => rfl
  | succ m ih =>
      simp only [extend_shade_records, List.map_cons, extend_shade_pipelines]
      rw [ih]

/-- Dispatch counts of the bounce pattern. -/
lemma extend_shade_records_counts (o : program_options)
    (limits : cgpu_physical_device_limits) :
    ∀ (n : Nat),
      (extend_shade_records o limits n).countP
          (fun r => r.pipeline == some PipelineId.ray_gen) = 0
      ∧ (extend_shade_records o limits n).countP
          (fun r => r.pipeline == some PipelineId.extend) = n
      ∧ (extend_shade_records o limits n).countP
          (fun r => r.pipeline == some PipelineId.shade) = n := by
  intro n
  induction n with
  | zero => exact ⟨rfl, rfl, rfl⟩
  | succ m ih =>
      refine ⟨?_, ?_, ?_⟩ <;>
        simp only [extend_shade_records, List.countP_cons] <;>
        simp [ih.1, ih.2.1, ih.2.2]

/-- C3: each batch's command stream contains exactly one Generate
dispatch followed by exactly bounces + 1 Extend+Shade dispatch pairs;
every Extend dispatch has exactly the write-to-read barrier on the
path-segment region recorded since the previous dispatch, and every
Shade dispatch has exactly the write-to-read barrier on the hit-info
region together with the write-to-read-or-write barrier on the output
buffer, all in the same command stream. -/
theorem batch_dispatch_structure (o : program_options)
    (limits : cgpu_physical_device_limits) (ray_offset : Nat) :
    (dispatch_log none [] (gatling_batch_cmds o limits ray_offset)).map
        DispatchRecord.pipeline
      = some PipelineId.ray_gen :: extend_shade_pipelines (o.bounces + 1)
    ∧ (dispatch_log none [] (gatling_batch_cmds o limits ray_offset)).countP
        (fun r => r.pipeline == some PipelineId.ray_gen) = 1
    ∧ (dispatch_log none [] (gatling_batch_cmds o limits ray_offset)).countP
        (fun r => r.pipeline == some PipelineId.extend) = o.bounces + 1
    ∧ (dispatch_log none [] (gatling_batch_cmds o limits ray_offset)).countP
        (fun r => r.pipeline == some PipelineId.shade) = o.bounces + 1
    ∧ (∀ r ∈ dispatch_log none [] (gatling_batch_cmds o limits ray_offset),
        r.pipeline = some PipelineId.extend →
        r.barriers_before = [path_segment_barrier o])
    ∧ (∀ r ∈ dispatch_log none [] (gatling_batch_cmds o limits ray_offset),
        r.pipeline = some PipelineId.shade →
        r.barriers_before = [hit_info_barrier o limits, output_barrier]) := by
  rw [dispatch_log_batch]
  have hc := extend_shade_records_counts o limits (o.bounces + 1)
  refine ⟨?_, ?_, ?_, ?_, ?_, ?_⟩
  · simp only [List.map_cons, extend_shade_records_map]
  · simp only [List.countP_cons]
    simp [hc.1]
  · simp only [List.countP_cons]
    simp [hc.2.1]
  · simp only [List.countP_cons]
    simp [hc.2.2]
  · intro r hr hpl
    rcases List.mem_cons.mp hr with h | hr
    · rw [h] at hpl; simp at hpl
    · rcases extend_shade_records_mem o limits _ r hr with h | h
      · rw [h]
      · rw [h] at hpl; simp at hpl
  · intro r hr hpl
    rcases List.mem_cons.mp hr with h | hr
    · rw [h] at hpl; simp at hpl
    · rcases extend_shade_records_mem o limits _ r hr with h | h
      · rw [h] at hpl; simp at hpl
      · rw [h]

/-- C3 witness: the structure at a concrete configuration (one bounce
round) evaluated at ray offset 0. -/
theorem batch_dispatch_structure_witness :
    (dispatch_log none []
        (gatling_batch_cmds ⟨1, 1, 1, 0, 1⟩ ⟨256, 32, 65535, 1024⟩ 0)).countP
        (fun r => r.pipeline == some PipelineId.extend) = 0 + 1
    ∧ (dispatch_log none []
        (gatling_batch_cmds ⟨1, 1, 1, 0, 1⟩ ⟨256, 32, 65535, 1024⟩ 0)).map
        DispatchRecord.pipeline
      = some PipelineId.ray_gen :: extend_shade_pipelines (0 + 1) := by
  have h := batch_dispatch_structure ⟨1, 1, 1, 0, 1⟩ ⟨256, 32, 65535, 1024⟩ 0
  exact ⟨h.2.2.1, h.1⟩

/-- C6 counterexample: on a device whose limits report
maxComputeWorkGroupCount[0] = 65535 and maxComputeWorkGroupSize[0] =
1024, the Extend and Shade dispatches are launched with group width
1024 — `device_limits.maxComputeWorkGroupSize[0]` (main.c lines 748-754
and 788-794) — not with the maxComputeWorkGroupCount limit the claim
names. -/
theorem dispatch_width_counterexample :
    ¬ (∀ r ∈ dispatch_log none []
          (gatling_batch_cmds ⟨1, 1, 1, 0, 1⟩ ⟨256, 32, 65535, 1024⟩ 0),
        (r.pipeline = some PipelineId.extend
          ∨ r.pipeline = some PipelineId.shade) →
        r.dim_x = (⟨256, 32, 65535, 1024⟩ :
          cgpu_physical_device_limits).maxComputeWorkGroupCount0) := by
  decide

/-- C6 (amended): every Extend dispatch and every Shade dispatch in a
batch is launched with a group width equal to the device's reported
maxComputeWorkGroupSize[0] limit — a value queried from the backend at
runtime, never a hardcoded width. -/
theorem dispatch_width_from_limits (o : program_options)
    (limits : cgpu_physical_device_limits) (ray_offset : Nat) :
    ∀ r ∈ dispatch_log none [] (gatling_batch_cmds o limits ray_offset),
      (r.pipeline = some PipelineId.extend
        ∨ r.pipeline = some PipelineId.shade) →
      r.dim_x = limits.maxComputeWorkGroupSize0
      ∧ r.dim_y = 1 ∧ r.dim_z = 1 := by
  rw [dispatch_log_batch]
  intro r hr hpl
  rcases List.mem_cons.mp hr with h | hr
  · rw [h] at hpl
    rcases hpl with h' | h' <;> simp at h'
  · rcases extend_shade_records_mem o limits _ r hr with h | h <;> rw [h]
    · exact ⟨rfl, rfl, rfl⟩
    · exact ⟨rfl, rfl, rfl⟩

/-- C6 witness: the Extend dispatch record of a concrete batch has width
maxComputeWorkGroupSize[0] = 1024. -/
theorem dispatch_width_from_limits_witness :
    (⟨some PipelineId.extend, [path_segment_barrier ⟨1, 1, 1, 0, 1⟩],
        1024, 1, 1⟩ : DispatchRecord).dim_x
      = (⟨256, 32, 65535, 1024⟩ :
          cgpu_physical_device_limits).maxComputeWorkGroupSize0
    ∧ (⟨some PipelineId.extend, [path_segment_barrier ⟨1, 1, 1, 0, 1⟩],
        1024, 1, 1⟩ : DispatchRecord).dim_y = 1
    ∧ (⟨some PipelineId.extend, [path_segment_barrier ⟨1, 1, 1, 0, 1⟩],
        1024, 1, 1⟩ : DispatchRecord).dim_z = 1 :=
  dispatch_width_from_limits ⟨1, 1, 1, 0, 1⟩ ⟨256, 32, 65535, 1024⟩ 0
    ⟨some PipelineId.extend, [path_segment_barrier ⟨1, 1, 1, 0, 1⟩], 1024, 1, 1⟩
    (by decide) (Or.inl rfl)

/-! ## Handle registry lemmas (C2, C8) -/

/-- Out-of-range slots read as the fresh unoccupied slot. -/
lemma slotAt_of_le {s : resource_store} {i : Nat}
    (h : s.slots.length ≤ i) : s.slotAt i = ⟨0, false⟩ := by
  simp [resource_store.slotAt, List.getD, List.getElem?_eq_none h]

/-- Reading an updated slot list at the written index. -/
lemma slotAt_set_self {slots : List resource_slot} {i : Nat}
    {a : resource_slot} (h : i < slots.length) (fl : List Nat) :
    (resource_store.mk (slots.set i a) fl).slotAt i = a := by
  simp [resource_store.slotAt, List.getD, List.getElem?_set_self, h]

/-- Reading an updated slot list away from the written index. -/
lemma slotAt_set_ne {slots : List resource_slot} {i j : Nat}
    {a : resource_slot} (h : i ≠ j) (fl fl' : List Nat) :
    (resource_store.mk (slots.set i a) fl).slotAt j
      = (resource_store.mk slots fl').slotAt j := by
  simp [resource_store.slotAt, List.getD, List.getElem?_set_ne h]

/-- A single registry operation never decreases any slot's generation. -/
lemma gen_mono_step (s : resource_store) (op : StoreOp) (i : Nat) :
    (s.slotAt i).generation ≤ ((store_step s op).slotAt i).generation := by
  cases op with
  | alloc =>
      rw [store_step]
      unfold resource_store_create_handle
      cases hfl : s.free_list with
      | cons j rest =>
          simp only [resource_store.slotAt, List.getD]
          by_cases hij : j = i
          · subst hij
            by_cases hj : j < s.slots.length
            · simp [List.getElem?_set_self, hj, resource_store.slotAt,
                List.getD]
            · rw [List.set_eq_of_length_le (Nat.le_of_not_lt hj)]
          · simp [List.getElem?_set_ne hij]
      | nil =>
          simp only [resource_store.slotAt, List.getD, List.get?_eq_getElem?]
          by_cases hi : i < s.slots.length
          · have hne : s.slots.length ≠ i := Nat.ne_of_gt hi
            rw [List.getElem?_set_ne hne]
            simp [List.getElem?_append, hi]
          · rw [List.getElem?_eq_none (Nat.le_of_not_lt hi)]
            simp
  | free h =>
      rw [store_step]
      unfold resource_store_free_handle
      cases hg : resource_store_get s h with
      | none => simp
      | some p =>
          simp only [resource_store.slotAt, List.getD]
          have hidx : h.index < s.slots.length := by
            by_contra hc
            rw [resource_store_get, if_neg hc] at hg
            exact Option.noConfusion hg
          by_cases hij : h.index = i
          · subst hij
            simp [List.getElem?_set_self, hidx, resource_store.slotAt,
              List.getD]
          · simp [List.getElem?_set_ne hij]

/-- Generations never decrease along any operation sequence. -/
lemma gen_mono_run (ops : List StoreOp) :
    ∀ (s : resource_store) (i : Nat),
      (s.slotAt i).generation ≤ ((store_run s ops).slotAt i).generation := by
  induction ops with
  | nil => intro s i; exact le_refl _
  | cons op rest ih =>
      intro s i
      exact le_trans (gen_mono_step s op i) (ih (store_step s op) i)

/-- What a successful resolution means: the returned pointer is the slot
index, the slot is in bounds and occupied, and its generation matches
the handle's. -/
lemma resolve_some_facts {s : resource_store} {h : Handle} {p : Nat}
    (hres : resource_store_get s h = some p) :
    p = h.index ∧ h.index < s.slots.length
    ∧ (s.slotAt h.index).occupied = true
    ∧ (s.slotAt h.index).generation = h.generation := by
  rw [resource_store_get] at hres
  by_cases hidx : h.index < s.slots.length
  · rw [if_pos hidx] at hres
    by_cases hcond : (s.slotAt h.index).occupied
      && (s.slotAt h.index).generation == h.generation
    · simp only [hcond, if_true] at hres
      have hc := Bool.and_eq_true_iff.mp hcond
      exact ⟨(Option.some_inj.mp hres).symm, hidx, hc.1, by simpa using hc.2⟩
    · simp only [hcond, if_false] at hres
      exact Option.noConfusion hres
  · rw [if_neg hidx] at hres
    exact Option.noConfusion hres

/-- A handle whose generation is strictly below the slot's current
generation never resolves. -/
lemma resolve_none_of_gen_gt {s : resource_store} {h : Handle}
    (hgt : h.generation < (s.slotAt h.index).generation) :
    resource_store_get s h = none := by
  rw [resource_store_get]
  by_cases hidx : h.index < s.slots.length
  · rw [if_pos hidx]
    have hne : ((s.slotAt h.index).generation == h.generation) = false :=
      beq_eq_false_iff_ne.mpr (Nat.ne_of_gt hgt)
    simp [hne]
  · rw [if_neg hidx]

/-- After a successful free the slot's generation is the freed handle's
generation plus one. -/
lemma free_success_gen {s : resource_store} {h : Handle}
    (hok : (resource_store_free_handle s h).2 = true) :
    ((resource_store_free_handle s h).1.slotAt h.index).generation
      = h.generation + 1 := by
  unfold resource_store_free_handle at hok ⊢
  cases hg : resource_store_get s h with
  | none => rw [hg] at hok; simp at hok
  | some p =>
      rcases resolve_some_facts hg with ⟨-, hidx, -, hgen⟩
      simp only [hg]
      rw [slotAt_set_self hidx]
      rw [hgen]

/-- C2: for every sequence of allocate/free operations on a store created
by `resource_store_create`, (a) once a handle's matching free has
succeeded, the handle never resolves again, no matter which further
operations run; (b) two simultaneously-live handles (both resolving
successfully) that resolve to the same slot are the same handle. -/
theorem registry_handle_safety (cap : Nat) (ops1 ops2 : List StoreOp)
    (h h1 h2 : Handle) (p : Nat) :
    ((resource_store_free_handle
        (store_run (resource_store_create cap) ops1) h).2 = true →
      resource_store_get
        (store_run (resource_store_free_handle
          (store_run (resource_store_create cap) ops1) h).1 ops2) h = none)
    ∧ (resource_store_get (store_run (resource_store_create cap) ops1) h1
          = some p →
       resource_store_get (store_run (resource_store_create cap) ops1) h2
          = some p →
       h1 = h2) := by
  constructor
  · intro hok
    apply resolve_none_of_gen_gt
    have h1' := free_success_gen hok
    have h2' := gen_mono_run ops2
      (resource_store_free_handle
        (store_run (resource_store_create cap) ops1) h).1 h.index
    omega
  · intro hr1 hr2
    rcases resolve_some_facts hr1 with ⟨hp1, -, -, hg1⟩
    rcases resolve_some_facts hr2 with ⟨hp2, -, -, hg2⟩
    have hidx : h1.index = h2.index := by rw [← hp1, ← hp2]
    have hgen : h1.generation = h2.generation := by
      rw [← hg1, ← hg2, hidx]
    cases h1
    cases h2
    simp only [Handle.mk.injEq]
    exact ⟨hidx, hgen⟩

/-- C2 witness: on a one-slot store, allocate, free the handle (0,0)
successfully, allocate again (which reuses slot 0 at generation 1); the
freed handle no longer resolves. -/
theorem registry_handle_safety_witness :
    resource_store_get
      (store_run (resource_store_free_handle
        (store_run (resource_store_create 1) [StoreOp.alloc]) ⟨0, 0⟩).1
        [StoreOp.alloc]) ⟨0, 0⟩ = none :=
  (registry_handle_safety 1 [StoreOp.alloc] [StoreOp.alloc]
    ⟨0, 0⟩ ⟨0, 0⟩ ⟨0, 0⟩ 0).1 (by decide)

/-- C8: destroying a buffer through a handle that fails resolution
against the buffer store returns the invalid-handle error, performs no
backend destruction (`vkDestroyBuffer`/`vkFreeMemory` are not reached),
and leaves the buffer store — slots and free-list — unchanged. -/
theorem destroy_buffer_invalid_handle
    (idevice_store ibuffer_store : resource_store) (device buffer : Handle)
    (hres : resource_store_get ibuffer_store buffer = none) :
    cgpu_destroy_buffer idevice_store ibuffer_store device buffer
      = (CgpuResult.fail_invalid_handle, ibuffer_store, false) := by
  unfold cgpu_destroy_buffer
  cases resource_store_get idevice_store device with
  | none => rfl
  | some q => rw [hres]

/-- C8 witness: a fresh (never-allocated) buffer handle fails resolution
and the destroy call reports it without touching the store. -/
theorem destroy_buffer_invalid_handle_witness :
    cgpu_destroy_buffer
      (resource_store_create_handle (resource_store_create 1)).1
      (resource_store_create 4) ⟨0, 0⟩ ⟨2, 0⟩
      = (CgpuResult.fail_invalid_handle, resource_store_create 4, false) :=
  destroy_buffer_invalid_handle
    (resource_store_create_handle (resource_store_create 1)).1
    (resource_store_create 4) ⟨0, 0⟩ ⟨2, 0⟩ (by decide)

end Gatling
